import Mathlib

/-!
Verification of the client-side access layer of LLM-Runner-Router.

The definitions below are a shallow embedding of the Python sources
`src/bindings/python/llm_runner_router/websocket_client.py`,
`src/bindings/python/llm_runner_router/async_client.py` and
`src/bindings/python/llm_runner_router/exceptions.py`.

Python dictionaries are modelled as insertion-ordered association lists
with string keys (Python dict keys used here are always strings), JSON
values (`json.loads` results / `Dict[str, Any]` payloads) as the
inductive `Json`, `asyncio.Future` objects as an explicit state, and the
externally-supplied socket / HTTP transport as an explicit outcome
parameter.
-/

namespace LLMRouter

/-- JSON-like values: the Python scalars / lists / dicts carried on the
wire and stored in `data` fields. -/
inductive Json where
  | null
  | bool (b : Bool)
  | num (n : Int)
  | str (s : String)
  | arr (elems : List Json)
  | obj (fields : List (String × Json))

/-- First-match lookup in a string-keyed association list; models
`d[k]` / `d.get(k)` on a Python dict (keys are unique there, so first
match is the match). -/
def dictGet? {α : Type} : List (String × α) → String → Option α
  | [], _ => none
  | (k', v) :: rest, k => if k' = k then some v else dictGet? rest k

/-- Remove every binding of `k`; models `d.pop(k, None)`'s effect on the
dict (on the unique-key dicts of the source this removes the one
binding, and is a no-op when the key is absent). -/
def dictRemove {α : Type} : List (String × α) → String → List (String × α)
  | [], _ => []
  | (k', v) :: rest, k =>
    if k' = k then dictRemove rest k else (k', v) :: dictRemove rest k

/-- Replace the value bound to `k` (leaving the list unchanged when `k`
is absent); models an in-place mutation of the object found by a dict
lookup. -/
def dictSet {α : Type} : List (String × α) → String → α → List (String × α)
  | [], _, _ => []
  | (k', w) :: rest, k, v =>
    if k' = k then (k, v) :: dictSet rest k v else (k', w) :: dictSet rest k v

/-- Python dict assignment `d[k] = v`: replace when present, append at
the end (insertion order) when absent. -/
def dictInsert {α : Type} (d : List (String × α)) (k : String) (v : α) :
    List (String × α) :=
  if (dictGet? d k).isSome then dictSet d k v else d ++ [(k, v)]

/-- `j.get(k)` on a JSON object; `none` when `j` is not an object or the
key is absent (Python `dict.get` returns `None`). -/
def Json.get? : Json → String → Option Json
  | .obj fields, k => dictGet? fields k
  | _, _ => none

/-- `j.get(k, d)` with a default. -/
def Json.getD (j : Json) (k : String) (d : Json) : Json :=
  (j.get? k).getD d

/-- Python truthiness of a JSON value (`if x:`). -/
def Json.truthy : Json → Bool
  | .null => false
  | .bool b => b
  | .num n => decide (n ≠ 0)
  | .str s => decide (s ≠ "")
  | .arr elems => !elems.isEmpty
  | .obj fields => !fields.isEmpty

/-- Python `s.startswith(pre)`, modelled character-wise (the strings
involved are ASCII, where Python's and Lean's character indexing
agree). -/
def pyStartsWith (s pre : String) : Bool :=
  pre.data.isPrefixOf s.data

/-- Python slicing `s[n:]`, modelled character-wise. -/
def pyDrop (s : String) (n : Nat) : String :=
  ⟨s.data.drop n⟩

/-- Truthiness of an optional value (`d.get(k)` is `None` when absent,
and `None` is falsy). -/
def truthyOpt : Option Json → Bool
  | none => false
  | some j => j.truthy

/-- The error taxonomy of `exceptions.py`: one constructor per exception
class deriving from `LLMRouterError`. -/
inductive ErrKind where
  | generic
  | network
  | timeout
  | rateLimit
  | authentication
  | validation
  | modelNotFound
  | inference
  | configuration
  | streaming
  | grpc
  | webSocket
  deriving DecidableEq

/-- An `LLMRouterError` value: `kind` is the concrete exception class,
`message` the first constructor argument (any Python value, stored
as-is), `statusCode` and `responseData` the remaining constructor
arguments (`response_data` is normalised to `{}` by the constructor's
`response_data or {}`).  The `original_error` attribute (an opaque
foreign exception object) is not modelled. -/
structure RouterError where
  kind : ErrKind
  message : Json
  statusCode : Option Nat
  responseData : Json

/-- Python string-equality test `x == "<lit>"` on a dynamically-typed
value: true exactly when the value is that string. -/
def strEq : Option Json → String → Bool
  | some (.str t), s => t == s
  | _, _ => false

/-- `response_data or {}` in `LLMRouterError.__init__`: any falsy value
(including an absent `None`) is replaced by the empty dict. -/
def orEmptyDict : Option Json → Json
  | none => .obj []
  | some j => if j.truthy then j else .obj []

/-- The fixed `STATUS_CODE_TO_EXCEPTION` table of `exceptions.py`. -/
def STATUS_CODE_TO_EXCEPTION : List (Nat × ErrKind) :=
  [(400, .validation),
   (401, .authentication),
   (403, .authentication),
   (404, .modelNotFound),
   (408, .timeout),
   (429, .rateLimit),
   (500, .inference),
   (502, .network),
   (503, .network),
   (504, .timeout)]

/-- `create_exception_from_response` of `exceptions.py`: pick the
exception class for the status code (defaulting to the generic
`LLMRouterError`) and build it. -/
def create_exception_from_response (statusCode : Nat) (message : Json)
    (responseData : Option Json) : RouterError :=
  { kind := ((STATUS_CODE_TO_EXCEPTION.lookup statusCode).getD .generic),
    message := message,
    statusCode := some statusCode,
    responseData := orEmptyDict responseData }

/-! ### The WebSocket client (`websocket_client.py`) -/

/-- The state of one `asyncio.Future`.  A future is resolved at most
once; `cancelled` is the state after `future.cancel()` on a pending
future. -/
inductive FutureState where
  | pending
  | result (value : Json)
  | failed (error : RouterError)
  | cancelled

/-- `future.cancelled()`. -/
def FutureState.isCancelled : FutureState → Bool
  | .cancelled => true
  | _ => false

/-- Whether the future is still unresolved (`set_result` /
`set_exception` succeed exactly in this state). -/
def FutureState.isPending : FutureState → Bool
  | .pending => true
  | _ => false

/-- A completion handle stored in `WebSocketClient._pending_requests`:
an `asyncio.Future`, which for streams additionally carries the
duck-typed `_stream_queue` attribute (absent = `none`; the receive loop
attaches one on demand, `stream_inference` allocates one up front).
Queue items are chunks, with `none` for the Python `None` end-of-stream
sentinel. -/
structure FutureObj where
  state : FutureState
  streamQueue : Option (List (Option Json))

/-- The mutable state of a `WebSocketClient` relevant to request
correlation: the `_message_id` counter and the `_pending_requests`
table. -/
structure WSClientState where
  messageId : Nat
  pendingRequests : List (String × FutureObj)

/-- `future.cancel()`: a pending future becomes cancelled, a done future
is unaffected. -/
def FutureObj.cancel (f : FutureObj) : FutureObj :=
  match f.state with
  | .pending => { f with state := .cancelled }
  | _ => f

/-- `WebSocketClient._handle_stream_message`: look the envelope's
`stream_id` up in the table (a non-string or absent `stream_id` misses
the string-keyed dict); unless the future is cancelled, attach a queue
if the duck-typed attribute is missing, push `data.get("data", {})`,
and if `data.get("complete", False)` is truthy additionally push the
`None` sentinel.  The table entry itself is never removed here. -/
def handle_stream_message (st : WSClientState) (data : Json) : WSClientState :=
  match data.get? "stream_id" with
  | some (.str sid) =>
    match dictGet? st.pendingRequests sid with
    | some fut =>
      if fut.state.isCancelled then st
      else
        let q0 := fut.streamQueue.getD []
        let q1 := q0 ++ [some (data.getD "data" (.obj []))]
        let q2 := if (data.getD "complete" (.bool false)).truthy then q1 ++ [none] else q1
        { st with
          pendingRequests :=
            dictSet st.pendingRequests sid { fut with streamQueue := some q2 } }
    | none => st
  | _ => st

/-- `WebSocketClient._handle_message`, one step of the receive loop.
Returns the updated client state, together with the single-shot future
popped by the `response` branch in its final state (the caller of
`_send_request` still holds a reference to that future after it leaves
the table; `none` when no future was popped).  A `response` whose
future is cancelled is popped but not written to; a `response` whose
future is already done would make `set_result` raise
`InvalidStateError`, which the surrounding `_message_handler` catches
and logs, leaving the future as it was.  `event` dispatch and the
unknown-type branch only log / call external handlers and leave the
table untouched. -/
def handle_message (st : WSClientState) (data : Json) : WSClientState × Option (String × FutureObj) :=
  let messageType := data.get? "type"
  let messageId := data.get? "id"
  if strEq messageType "response" && truthyOpt messageId then
    match messageId with
    | some (.str mid) =>
      match dictGet? st.pendingRequests mid with
      | some fut =>
        let rest := dictRemove st.pendingRequests mid
        let fut1 :=
          if fut.state.isCancelled then fut
          else if !fut.state.isPending then fut
          else if truthyOpt (data.get? "error") then
            { fut with
              state := .failed
                { kind := .webSocket,
                  message := (data.get? "error").getD .null,
                  statusCode := none,
                  responseData := orEmptyDict none } }
          else { fut with state := .result (data.getD "data" (.obj [])) }
        ({ st with pendingRequests := rest }, some (mid, fut1))
      | none => (st, none)
    | _ => (st, none)
  else if strEq messageType "stream" then
    (handle_stream_message st data, none)
  else
    (st, none)

/-- `WebSocketClient.close`: cancel the background task, close the
socket, call `future.cancel()` on every pending future, and clear the
table.  Returns the new state together with the final states of the
futures that were in the table (their waiting callers still reference
them). -/
def close (st : WSClientState) : WSClientState × List (String × FutureObj) :=
  ({ st with pendingRequests := [] },
   st.pendingRequests.map (fun kv => (kv.1, kv.2.cancel)))

/-- What `WebSocketClient._message_handler` does when the socket closes
remotely (`websockets.exceptions.ConnectionClosed`, clean or error, and
likewise any other terminal exception of the receive loop): it only
logs; no pending request or table entry is touched. -/
def on_connection_closed (st : WSClientState) : WSClientState := st

/-- The outcome of the external `self._websocket.send(...)` call. -/
inductive SendOutcome where
  | ok
  | raised (errText : String)

/-- The outbound envelope built by `_send_request`. -/
def request_message (messageId requestType : String) (data : Json) : Json :=
  .obj [("type", .str "request"), ("id", .str messageId),
        ("request_type", .str requestType), ("data", data)]

/-- `WebSocketClient._send_request` up to the point where the caller
starts awaiting the future: allocate `str(self._message_id)`, increment
the counter, register a fresh pending future under that id, then send.
When the socket `send` raises, the `except Exception` branch pops the
entry and raises `WebSocketError(f"WebSocket request failed: {e}")`. -/
def send_request_start (st : WSClientState) (requestType : String) (data : Json)
    (sendOutcome : SendOutcome) : WSClientState × Except RouterError (String × Json) :=
  let messageId := toString st.messageId
  let message := request_message messageId requestType data
  let st1 : WSClientState :=
    { messageId := st.messageId + 1,
      pendingRequests :=
        dictInsert st.pendingRequests messageId { state := .pending, streamQueue := none } }
  match sendOutcome with
  | .ok => (st1, .ok (messageId, message))
  | .raised e =>
    ({ st1 with pendingRequests := dictRemove st1.pendingRequests messageId },
     .error
       { kind := .webSocket,
         message := .str ("WebSocket request failed: " ++ e),
         statusCode := none,
         responseData := orEmptyDict none })

/-- The `except asyncio.TimeoutError` branch of `_send_request`: pop the
dispatcher's own entry, then raise `TimeoutError`. -/
def send_request_timeout (st : WSClientState) (messageId requestType : String) :
    WSClientState × RouterError :=
  ({ st with pendingRequests := dictRemove st.pendingRequests messageId },
   { kind := .timeout,
     message := .str ("WebSocket request timeout: " ++ requestType),
     statusCode := none,
     responseData := orEmptyDict none })

/-- `WebSocketClient.stream_inference` up to registering the stream
handle: allocate `str(self._message_id)`, increment, and register a
future that already carries an (empty) `_stream_queue`. -/
def stream_inference_start (st : WSClientState) : WSClientState × String :=
  let streamId := toString st.messageId
  ({ messageId := st.messageId + 1,
     pendingRequests :=
       dictInsert st.pendingRequests streamId { state := .pending, streamQueue := some [] } },
   streamId)

/-- The `finally` clause of `stream_inference`: pop the stream's entry
when the consumer's iteration ends. -/
def stream_inference_finish (st : WSClientState) (streamId : String) : WSClientState :=
  { st with pendingRequests := dictRemove st.pendingRequests streamId }

/-- The caller's `await asyncio.wait_for(future, ...)` in
`_send_request`, once the receive loop has acted: a resolved future
yields its payload, a failed one raises the stored error; `none` stands
for a future that is still pending (the caller keeps waiting) or was
cancelled (`CancelledError`, which `_send_request` does not catch). -/
def await_future (fut : FutureObj) : Option (Except RouterError Json) :=
  match fut.state with
  | .result v => some (.ok v)
  | .failed err => some (.error err)
  | _ => none

/-- The consumer loop of `stream_inference`: repeatedly take the next
item from the stream queue and yield it, stopping at the `None`
sentinel.  Applied to the queue contents accumulated by the receive
loop, it returns the chunks the caller observes, in order. -/
def drainQueue : List (Option Json) → List Json
  | [] => []
  | none :: _ => []
  | some c :: rest => c :: drainQueue rest

/-- An inbound stream envelope as `_handle_stream_message` reads it. -/
def stream_envelope (streamId : String) (payload : Json) (complete : Bool) : Json :=
  .obj [("type", .str "stream"), ("stream_id", .str streamId),
        ("data", payload), ("complete", .bool complete)]

/-- An inbound response envelope without an error field. -/
def response_envelope (messageId : String) (payload : Json) : Json :=
  .obj [("type", .str "response"), ("id", .str messageId), ("data", payload)]

/-- An inbound response envelope carrying an error field. -/
def error_response_envelope (messageId : String) (error : Json) : Json :=
  .obj [("type", .str "response"), ("id", .str messageId), ("error", error)]

/-- The wire messages of one whole stream: the chunks in wire order,
the last one marked `complete`. -/
def stream_messages (streamId : String) : List Json → List Json
  | [] => []
  | [c] => [stream_envelope streamId c true]
  | c :: c' :: rest => stream_envelope streamId c false :: stream_messages streamId (c' :: rest)

/-- Run the receive loop over a list of inbound envelopes (the wire
order), keeping only the table/client state. -/
def run_receive_loop (st : WSClientState) (msgs : List Json) : WSClientState :=
  msgs.foldl (fun s m => (handle_message s m).1) st

/-! ### The retrying HTTP path (`async_client.py`) -/

/-- Outcome of one underlying `httpx` call inside
`AsyncLLMRouterClient._make_request`: either an HTTP response (with
`body` the result of `response.json()` — `none` when the body is not
valid JSON — and `text` the raw body text), or a raised
`httpx.TimeoutException` / `httpx.NetworkError`. -/
inductive HttpAttempt where
  | response (statusCode : Nat) (body : Option Json) (text : String)
  | timeoutRaised (msg : String)
  | networkRaised (msg : String)

/-- The body of `AsyncLLMRouterClient._make_request`, one attempt (the
code inside the `tenacity` decorator): a status `≥ 400` is decoded via
`create_exception_from_response` with message `error_data.get("error",
"Request failed")` (or `"HTTP {code}: {text}"` when the error body is
not JSON); a `2xx/3xx` response returns its JSON body, raising
`ValidationError` when it does not parse; raised transport errors map
to `TimeoutError` / `NetworkError`. -/
def make_request_once : HttpAttempt → Except RouterError Json
  | .response statusCode body text =>
    if statusCode ≥ 400 then
      let message : Json :=
        match body with
        | some errorData => (errorData.get? "error").getD (.str "Request failed")
        | none => .str ("HTTP " ++ toString statusCode ++ ": " ++ text)
      .error (create_exception_from_response statusCode message body)
    else
      match body with
      | some b => .ok b
      | none =>
        .error
          { kind := .validation, message := .str ("Invalid JSON response: " ++ text),
            statusCode := none, responseData := orEmptyDict none }
  | .timeoutRaised msg =>
    .error
      { kind := .timeout, message := .str ("Request timeout: " ++ msg),
        statusCode := none, responseData := orEmptyDict none }
  | .networkRaised msg =>
    .error
      { kind := .network, message := .str ("Network error: " ++ msg),
        statusCode := none, responseData := orEmptyDict none }

/-- The `tenacity` retry loop around `_make_request`:
`stop=stop_after_attempt(n)` with the DEFAULT retry predicate (which
retries on any exception) and `reraise=True` (on exhaustion the last
error is re-raised unchanged).  `attempts i` is the outcome of the
`i`-th underlying call, `i` the index of the current attempt,
`remaining` how many attempts may still be made.  Returns the final
result and the total number of attempts used. -/
def retry_loop (attempts : Nat → HttpAttempt) : Nat → Nat → Except RouterError Json × Nat
  | i, 0 => (make_request_once (attempts i), i + 1)
  | i, 1 => (make_request_once (attempts i), i + 1)
  | i, (r + 2) =>
    match make_request_once (attempts i) with
    | .ok v => (.ok v, i + 1)
    | .error _ => retry_loop attempts (i + 1) (r + 1)

/-- `AsyncLLMRouterClient._make_request` as decorated:
`stop_after_attempt(3)`. -/
def make_request (attempts : Nat → HttpAttempt) : Except RouterError Json × Nat :=
  retry_loop attempts 0 3

/-- The frame loop of `AsyncLLMRouterClient.stream_inference`: iterate
over the lines of the chunked HTTP body; a line starting with
`"data: "` has its remainder JSON-decoded (`decode` stands for the
external `json.loads`; `none` models `json.JSONDecodeError`); a decode
failure is logged and skipped (`continue`); a decoded chunk is yielded,
and a chunk whose `is_complete` field is truthy then breaks the loop;
other lines are ignored; the loop also ends when the connection closes
(no more lines).  Returns the chunks yielded to the caller, in order. -/
def stream_lines (decode : String → Option Json) : List String → List Json
  | [] => []
  | line :: rest =>
    if pyStartsWith line "data: " then
      match decode (pyDrop line 6) with
      | some chunkData =>
        if (chunkData.getD "is_complete" (.bool false)).truthy then [chunkData]
        else chunkData :: stream_lines decode rest
      | none => stream_lines decode rest
    else stream_lines decode rest

/-- The queue effect of `_handle_stream_message` on the future it found:
append the chunk payload, and after it the `None` sentinel when the
envelope is completion-marked (attaching an empty queue first when the
duck-typed attribute is missing). -/
def pushChunk (fut : FutureObj) (payload : Json) (complete : Bool) : FutureObj :=
  { fut with
    streamQueue :=
      some (fut.streamQueue.getD [] ++ [some payload] ++ (if complete then [none] else [])) }

/-- The client state produced by `_handle_stream_message` when it finds
the live stream entry `fut` under `sid`: the entry's future gains the
pushed chunk (and sentinel), nothing else changes. -/
def handle_stream_message_target (st : WSClientState) (sid : String) (fut : FutureObj)
    (payload : Json) (complete : Bool) : WSClientState :=
  { st with pendingRequests := dictSet st.pendingRequests sid (pushChunk fut payload complete) }

/-- The `text` field read when `WebSocketClient.inference` builds
`InferenceResponse(**response_data)` from the dispatch result (pydantic
reads the required `text` key; the remaining fields are optional or
extra and not used by the claims). -/
def inference_response_text (responseData : Json) : Option Json :=
  responseData.get? "text"

/-- The allocator/table invariant of a `WebSocketClient`: the table's
keys are pairwise distinct, and every key is the rendering of a counter
value already consumed (strictly below the current `_message_id`).
It holds for a fresh client (`_message_id = 0`, empty table). -/
def WSInv (st : WSClientState) : Prop :=
  (st.pendingRequests.map Prod.fst).Nodup ∧
  ∀ k ∈ st.pendingRequests.map Prod.fst, ∃ n, n < st.messageId ∧ k = toString n

/-- A client state with two outstanding requests: a single-shot request
under id `"0"` and a stream under id `"1"` (queue allocated, empty). -/
def exampleBusyState : WSClientState :=
  { messageId := 2,
    pendingRequests :=
      [("0", { state := .pending, streamQueue := none }),
       ("1", { state := .pending, streamQueue := some [] })] }

/-- A fresh client: `_message_id = 0`, empty table. -/
def exampleFreshState : WSClientState := { messageId := 0, pendingRequests := [] }

/-- The inference request payload of the spec's end-to-end scenario. -/
def examplePingData : Json :=
  .obj [("prompt", .str "ping"),
        ("options", .obj [("max_tokens", .num 5), ("stream", .bool false)])]

/-- The response payload of the spec's end-to-end scenario. -/
def examplePongData : Json :=
  .obj [("text", .str "pong"), ("success", .bool true)]

/-- Three stream chunk payloads, tokens `a`, `b`, `c`. -/
def exampleTokens : List Json :=
  [.obj [("token", .str "a")], .obj [("token", .str "b")], .obj [("token", .str "c")]]

/-- A client state whose single table entry is a stream handle with an
empty queue. -/
def exampleStreamState : WSClientState :=
  { messageId := 1,
    pendingRequests := [("0", { state := .pending, streamQueue := some [] })] }

/-- A client state holding a cancelled single-shot future under id `"0"`
and a pending one under id `"1"`. -/
def exampleCancelledState : WSClientState :=
  { messageId := 2,
    pendingRequests :=
      [("0", { state := .cancelled, streamQueue := none }),
       ("1", { state := .pending, streamQueue := none })] }

/-- A stream chunk payload. -/
def exampleChunk : Json := .obj [("token", .str "a")]

/-- An attempt sequence whose first underlying call returns HTTP 404
with a decoded error body, after which the service would answer 200. -/
def attempts404ThenOk : Nat → HttpAttempt :=
  fun i =>
    if i = 0 then
      .response 404 (some (.obj [("error", .str "Model not found")])) "ignored"
    else
      .response 200 (some (.obj [("text", .str "ok")])) "ignored"

/-- An attempt sequence every one of whose underlying calls returns
HTTP 404 with a decoded error body. -/
def attemptsAlways404 : Nat → HttpAttempt :=
  fun _ => .response 404 (some (.obj [("error", .str "Model not found")])) "ignored"

/-- A concrete stand-in for `json.loads` in witnesses: decodes the one
recognised frame body and fails on everything else. -/
def exampleDecode : String → Option Json :=
  fun s =>
    if s = "final-frame" then some (.obj [("is_complete", .bool true), ("token", .str "z")])
    else none

/-! ### Injectivity of the id rendering `str(self._message_id)`

The allocator renders a `Nat` counter with `str(...)`, i.e. `toString`
(= `Nat.repr`).  The lemmas below connect `Nat.repr` to `Nat.digits`
and derive that the rendering is injective and never empty. -/

lemma digitChar_injOn (a b : Nat) (ha : a < 10) (hb : b < 10)
    (h : Nat.digitChar a = Nat.digitChar b) : a = b := by
  interval_cases a <;> interval_cases b <;> simp_all [Nat.digitChar]

lemma toDigitsCore_eq_digits (n : Nat) : ∀ (fuel : Nat) (acc : List Char), 0 < n → n < fuel →
    Nat.toDigitsCore 10 fuel n acc = ((Nat.digits 10 n).map Nat.digitChar).reverse ++ acc := by
  induction n using Nat.strong_induction_on with
  | _ n ih =>
    intro fuel acc hn hfuel
    match fuel with
    | 0 => omega
    | f + 1 =>
      rw [Nat.toDigitsCore]
      by_cases h10 : n / 10 = 0
      · rw [if_pos h10, Nat.digits_def' (by norm_num : 1 < 10) hn, h10, Nat.digits_zero]
        simp
      · rw [if_neg h10]
        have hlt : n / 10 < n := Nat.div_lt_self hn (by norm_num)
        have hfl : n / 10 < f := lt_of_lt_of_le hlt (Nat.lt_succ_iff.mp hfuel)
        rw [ih (n / 10) hlt f (Nat.digitChar (n % 10) :: acc) (Nat.pos_of_ne_zero h10) hfl,
          Nat.digits_def' (by norm_num : 1 < 10) hn]
        simp

lemma repr_eq_digits (n : Nat) (hn : 0 < n) :
    Nat.repr n = (((Nat.digits 10 n).map Nat.digitChar).reverse).asString := by
  simp only [Nat.repr, Nat.toDigits]
  rw [toDigitsCore_eq_digits n (n + 1) [] hn (Nat.lt_succ_self n)]
  simp

lemma map_digitChar_injOn : ∀ (l1 l2 : List Nat), (∀ d ∈ l1, d < 10) → (∀ d ∈ l2, d < 10) →
    l1.map Nat.digitChar = l2.map Nat.digitChar → l1 = l2 := by
  intro l1
  induction l1 with
  | nil =>
    intro l2 _ _ h
    cases l2 with
    | nil => rfl
    | cons b t2 => simp at h
  | cons a t ih =>
    intro l2 h1 h2 h
    cases l2 with
    | nil => simp at h
    | cons b t2 =>
      simp only [List.map_cons, List.cons.injEq] at h
      have ha := digitChar_injOn a b (h1 a (by simp)) (h2 b (by simp)) h.1
      have ht := ih t2 (fun d hd => h1 d (by simp [hd])) (fun d hd => h2 d (by simp [hd])) h.2
      rw [ha, ht]

lemma nat_repr_injective : Function.Injective Nat.repr := by
  have key : ∀ m n : Nat, 0 < n → Nat.repr m = Nat.repr n → Nat.digits 10 m = Nat.digits 10 n := by
    intro m n hn h
    rcases Nat.eq_zero_or_pos m with hm | hm
    · exfalso
      subst hm
      rw [repr_eq_digits n hn] at h
      rw [show Nat.repr 0 = (['0'] : List Char).asString from rfl, List.asString_inj] at h
      have h1 : (Nat.digits 10 n).map Nat.digitChar = ['0'] := by
        simpa using (congrArg List.reverse h).symm
      obtain ⟨d, t, hd⟩ : ∃ d t, Nat.digits 10 n = d :: t := by
        cases hdig : Nat.digits 10 n with
        | nil => rw [hdig] at h1; simp at h1
        | cons d t => exact ⟨d, t, rfl⟩
      rw [hd] at h1
      simp only [List.map_cons, List.cons.injEq] at h1
      have htnil : t = [] := List.map_eq_nil_iff.mp h1.2
      have hdlt : d < 10 := Nat.digits_lt_base (by norm_num) (by rw [hd]; simp)
      have hd0 : d = 0 := digitChar_injOn d 0 hdlt (by norm_num) h1.1
      have hofd := Nat.ofDigits_digits 10 n
      rw [hd, htnil, hd0] at hofd
      simp [Nat.ofDigits] at hofd
      omega
    · rw [repr_eq_digits m hm, repr_eq_digits n hn, List.asString_inj] at h
      have h2 := List.reverse_injective h
      exact map_digitChar_injOn _ _
        (fun d hd => Nat.digits_lt_base (by norm_num) hd)
        (fun d hd => Nat.digits_lt_base (by norm_num) hd) h2
  intro m n h
  rcases Nat.eq_zero_or_pos m with hm | hm
  · rcases Nat.eq_zero_or_pos n with hn | hn
    · omega
    · exact absurd (key m n hn h) (by rw [hm]; simp [Nat.digits_ne_nil_iff_ne_zero.mpr (by omega : n ≠ 0)])
  · rcases Nat.eq_zero_or_pos n with hn | hn
    · exact absurd (key n m hm h.symm) (by rw [hn]; simp [Nat.digits_ne_nil_iff_ne_zero.mpr (by omega : m ≠ 0)])
    · exact Nat.digits_inj_iff.mp (key m n hn h)

lemma nat_repr_ne_empty (n : Nat) : Nat.repr n ≠ "" := by
  rcases Nat.eq_zero_or_pos n with h | h
  · subst h; decide
  · rw [repr_eq_digits n h]
    intro hc
    rw [← String.asString_nil, List.asString_inj] at hc
    have hmap : (Nat.digits 10 n).map Nat.digitChar = [] := by
      simpa using congrArg List.reverse hc
    have hnil : Nat.digits 10 n = [] := List.map_eq_nil_iff.mp hmap
    exact absurd (Nat.digits_eq_nil_iff_eq_zero.mp hnil) (by omega)

lemma toString_nat_eq_repr (n : Nat) : toString n = Nat.repr n := rfl

/-! ### Association-list lemmas -/

lemma dictGet?_dictRemove_self {α : Type} (d : List (String × α)) (k : String) :
    dictGet? (dictRemove d k) k = none := by
  induction d with
  | nil => rfl
  | cons kv rest ih =>
    obtain ⟨k', v⟩ := kv
    by_cases h : k' = k
    · simp [dictRemove, h, ih]
    · simp [dictRemove, dictGet?, h, ih]

lemma dictGet?_dictRemove_ne {α : Type} (d : List (String × α)) (k k' : String)
    (h : k' ≠ k) : dictGet? (dictRemove d k) k' = dictGet? d k' := by
  induction d with
  | nil => rfl
  | cons kv rest ih =>
    obtain ⟨k0, v⟩ := kv
    by_cases h0 : k0 = k
    · subst h0
      simp [dictRemove, dictGet?, ih, Ne.symm h]
    · by_cases h1 : k0 = k'
      · simp [dictRemove, dictGet?, h0, h1, h]
      · simp [dictRemove, dictGet?, h0, h1, ih]

lemma dictGet?_dictSet_self {α : Type} (d : List (String × α)) (k : String) (v : α)
    (h : (dictGet? d k).isSome) : dictGet? (dictSet d k v) k = some v := by
  induction d with
  | nil => simp [dictGet?] at h
  | cons kv rest ih =>
    obtain ⟨k0, w⟩ := kv
    by_cases h0 : k0 = k
    · simp [dictSet, dictGet?, h0]
    · simp only [dictGet?, h0, if_false] at h
      simp [dictSet, dictGet?, h0, ih h]

lemma dictGet?_dictSet_ne {α : Type} (d : List (String × α)) (k k' : String) (v : α)
    (h : k' ≠ k) : dictGet? (dictSet d k v) k' = dictGet? d k' := by
  induction d with
  | nil => rfl
  | cons kv rest ih =>
    obtain ⟨k0, w⟩ := kv
    by_cases h0 : k0 = k
    · subst h0
      simp [dictSet, dictGet?, ih, Ne.symm h]
    · by_cases h1 : k0 = k'
      · simp [dictSet, dictGet?, h0, h1, h]
      · simp [dictSet, dictGet?, h0, h1, ih]

lemma dictGet?_append_right {α : Type} (d : List (String × α)) (k : String) (v : α)
    (h : dictGet? d k = none) : dictGet? (d ++ [(k, v)]) k = some v := by
  induction d with
  | nil => simp [dictGet?]
  | cons kv rest ih =>
    obtain ⟨k0, w⟩ := kv
    by_cases h0 : k0 = k
    · simp [dictGet?, h0] at h
    · simp only [dictGet?, h0, if_false] at h
      simp [dictGet?, h0, ih h]

lemma dictGet?_dictInsert_self {α : Type} (d : List (String × α)) (k : String) (v : α) :
    dictGet? (dictInsert d k v) k = some v := by
  unfold dictInsert
  by_cases h : (dictGet? d k).isSome
  · rw [if_pos h]
    exact dictGet?_dictSet_self d k v h
  · rw [if_neg h]
    exact dictGet?_append_right d k v (by
      cases hg : dictGet? d k with
      | none => rfl
      | some w => rw [hg] at h; simp at h)

lemma dictGet?_append_ne {α : Type} (d : List (String × α)) (k k' : String) (v : α)
    (h : k' ≠ k) : dictGet? (d ++ [(k, v)]) k' = dictGet? d k' := by
  induction d with
  | nil => simp [dictGet?, Ne.symm h]
  | cons kv rest ih =>
    obtain ⟨k0, w⟩ := kv
    by_cases h0 : k0 = k'
    · simp [dictGet?, h0]
    · simp [dictGet?, h0, ih]

lemma dictGet?_dictInsert_ne {α : Type} (d : List (String × α)) (k k' : String) (v : α)
    (h : k' ≠ k) : dictGet? (dictInsert d k v) k' = dictGet? d k' := by
  unfold dictInsert
  by_cases hp : (dictGet? d k).isSome
  · rw [if_pos hp]
    exact dictGet?_dictSet_ne d k k' v h
  · rw [if_neg hp]
    exact dictGet?_append_ne d k k' v h

lemma keys_dictSet {α : Type} (d : List (String × α)) (k : String) (v : α) :
    (dictSet d k v).map Prod.fst = d.map Prod.fst := by
  induction d with
  | nil => rfl
  | cons kv rest ih =>
    obtain ⟨k0, w⟩ := kv
    by_cases h0 : k0 = k
    · simp [dictSet, h0, ih]
    · simp [dictSet, h0, ih]

lemma mem_keys_dictRemove {α : Type} (d : List (String × α)) (k k' : String)
    (h : k' ∈ (dictRemove d k).map Prod.fst) : k' ∈ d.map Prod.fst := by
  induction d with
  | nil => simp [dictRemove] at h
  | cons kv rest ih =>
    obtain ⟨k0, w⟩ := kv
    by_cases h0 : k0 = k
    · simp only [dictRemove, h0, if_pos rfl] at h
      simp [ih h]
    · simp only [dictRemove, h0, if_false, List.map_cons, List.mem_cons] at h
      rcases h with h | h
      · simp [h]
      · simp [ih h]

lemma mem_keys_dictInsert {α : Type} (d : List (String × α)) (k k' : String) (v : α)
    (h : k' ∈ (dictInsert d k v).map Prod.fst) : k' ∈ d.map Prod.fst ∨ k' = k := by
  unfold dictInsert at h
  by_cases hp : (dictGet? d k).isSome
  · rw [if_pos hp, keys_dictSet] at h
    exact .inl h
  · rw [if_neg hp] at h
    simp only [List.map_append, List.mem_append, List.map_cons, List.map_nil,
      List.mem_singleton] at h
    rcases h with h | h
    · exact .inl h
    · exact .inr h

lemma dictGet?_eq_none_of_not_mem {α : Type} (d : List (String × α)) (k : String)
    (h : k ∉ d.map Prod.fst) : dictGet? d k = none := by
  induction d with
  | nil => rfl
  | cons kv rest ih =>
    obtain ⟨k0, v⟩ := kv
    simp only [List.map_cons, List.mem_cons] at h
    push_neg at h
    have h1 : ¬k0 = k := fun hc => h.1 hc.symm
    simp [dictGet?, h1, ih h.2]

lemma keys_dictInsert_of_not_mem {α : Type} (d : List (String × α)) (k : String) (v : α)
    (h : k ∉ d.map Prod.fst) :
    (dictInsert d k v).map Prod.fst = d.map Prod.fst ++ [k] := by
  unfold dictInsert
  rw [if_neg (by simp [dictGet?_eq_none_of_not_mem d k h])]
  simp

lemma keys_dictRemove_sublist {α : Type} (d : List (String × α)) (k : String) :
    ((dictRemove d k).map Prod.fst).Sublist (d.map Prod.fst) := by
  induction d with
  | nil => simp [dictRemove]
  | cons kv rest ih =>
    obtain ⟨k0, v⟩ := kv
    by_cases h0 : k0 = k
    · simp only [dictRemove, if_pos h0, List.map_cons]
      exact ih.cons k0
    · simp only [dictRemove, if_neg h0, List.map_cons]
      exact ih.cons₂ k0

/-- The receive loop treats a stream envelope through
`_handle_stream_message` and pops no single-shot future. -/
lemma handle_message_stream (st : WSClientState) (sid : String) (payload : Json) (b : Bool) :
    handle_message st (stream_envelope sid payload b) =
      (handle_stream_message st (stream_envelope sid payload b), none) := rfl

/-- Effect of one stream envelope on a live stream entry. -/
lemma handle_stream_message_step (st : WSClientState) (sid : String) (fut : FutureObj)
    (payload : Json) (b : Bool)
    (hlook : dictGet? st.pendingRequests sid = some fut)
    (hnc : fut.state.isCancelled = false) :
    handle_stream_message st (stream_envelope sid payload b) =
      handle_stream_message_target st sid fut payload b := by
  cases b <;>
    simp [handle_stream_message, stream_envelope, Json.get?, Json.getD, dictGet?,
      hlook, hnc, Json.truthy, pushChunk, handle_stream_message_target]

/-- Folding the wire messages of one stream over the receive loop
appends exactly the chunks (as queue items) and the end sentinel to the
stream's queue, leaving the entry in the table. -/
lemma fold_stream_messages (cs : List Json) :
    ∀ (st : WSClientState) (sid : String) (fut : FutureObj) (q : List (Option Json)),
    cs ≠ [] →
    dictGet? st.pendingRequests sid = some fut →
    fut.state.isCancelled = false →
    fut.streamQueue = some q →
    dictGet? (run_receive_loop st (stream_messages sid cs)).pendingRequests sid =
      some { fut with streamQueue := some (q ++ cs.map some ++ [none]) } := by
  induction cs with
  | nil => intro _ _ _ _ hne; exact absurd rfl hne
  | cons c rest ih =>
    intro st sid fut q _ hlook hnc hq
    cases rest with
    | nil =>
      simp only [stream_messages, run_receive_loop, List.foldl_cons, List.foldl_nil,
        handle_message_stream]
      rw [handle_stream_message_step st sid fut c true hlook hnc]
      rw [show (handle_stream_message_target st sid fut c true).pendingRequests =
        dictSet st.pendingRequests sid (pushChunk fut c true) from rfl]
      rw [dictGet?_dictSet_self st.pendingRequests sid _ (by simp [hlook])]
      simp [pushChunk, hq]
    | cons c' rest' =>
      simp only [stream_messages, run_receive_loop, List.foldl_cons, handle_message_stream]
      rw [handle_stream_message_step st sid fut c false hlook hnc]
      have hlook1 :
          dictGet? (dictSet st.pendingRequests sid (pushChunk fut c false)) sid =
            some (pushChunk fut c false) :=
        dictGet?_dictSet_self st.pendingRequests sid _ (by simp [hlook])
      have hrec := ih (handle_stream_message_target st sid fut c false) sid
        (pushChunk fut c false) (fut.streamQueue.getD [] ++ [some c] ++ [])
        (by simp) hlook1 (by simpa [pushChunk] using hnc) rfl
      simp only [run_receive_loop] at hrec
      rw [hrec]
      simp [pushChunk, hq, List.append_assoc]

/-- The consumer observes exactly the chunks before the sentinel, in
order, and nothing after it. -/
lemma drainQueue_map_some (cs : List Json) (extra : List (Option Json)) :
    drainQueue (cs.map some ++ (none :: extra)) = cs := by
  induction cs with
  | nil => rfl
  | cons c rest ih => simp [drainQueue, ih]

/-- A fresh id is outside the table under the allocator invariant. -/
lemma fresh_id_not_mem (st : WSClientState) (hinv : WSInv st) :
    toString st.messageId ∉ st.pendingRequests.map Prod.fst := by
  intro hmem
  obtain ⟨n, hn, hk⟩ := hinv.2 _ hmem
  have hk' : Nat.repr st.messageId = Nat.repr n := hk
  have := nat_repr_injective hk'
  omega

/-! ## Claim theorems -/

/-- C1, counterexample: with a single-shot request (id `"0"`) and a
stream (id `"1"`) outstanding, a remote socket close leaves the table
untouched and the single-shot future still pending — no entry is
resolved with a connection-closed error and the table is not cleared —
while an explicit `close()` cancels the futures instead of resolving
them with a connection-closed error, and pushes no error sentinel onto
the stream's (still empty) queue. -/
theorem c1_close_counterexample :
    on_connection_closed exampleBusyState = exampleBusyState ∧
    dictGet? (on_connection_closed exampleBusyState).pendingRequests "0" =
      some { state := .pending, streamQueue := none } ∧
    (close exampleBusyState).2 =
      [("0", { state := .cancelled, streamQueue := none }),
       ("1", { state := .cancelled, streamQueue := some [] })] :=
  ⟨rfl, rfl, rfl⟩

/-- C1, amended: an explicit `close()` cancels every pending future
(callers observe cancellation, not a connection-closed error, and
stream queues receive no sentinel) and clears the table, while a remote
socket close (clean or error) only logs and leaves every table entry
untouched, pending requests failing later by their own timeouts. -/
theorem c1_close_cancels_and_clears (st : WSClientState) (k : String) (fut : FutureObj)
    (hmem : (k, fut) ∈ st.pendingRequests) (hp : fut.state = .pending) :
    (close st).1.pendingRequests = [] ∧
    (k, { fut with state := .cancelled }) ∈ (close st).2 ∧
    on_connection_closed st = st := by
  refine ⟨rfl, ?_, rfl⟩
  have hc : (fun kv : String × FutureObj => (kv.1, kv.2.cancel)) (k, fut) =
      (k, { fut with state := .cancelled }) := by
    simp [FutureObj.cancel, hp]
  exact hc ▸ List.mem_map_of_mem _ hmem

/-- Witness for the amended C1 at the two-request state. -/
theorem c1_close_cancels_and_clears_witness :
    (close exampleBusyState).1.pendingRequests = [] ∧
    ("0", ({ state := .cancelled, streamQueue := none } : FutureObj)) ∈
      (close exampleBusyState).2 ∧
    on_connection_closed exampleBusyState = exampleBusyState :=
  c1_close_cancels_and_clears exampleBusyState "0"
    { state := .pending, streamQueue := none } (List.Mem.head _) rfl

/-- C4, counterexample: a completion-marked stream chunk for the live
stream entry `"0"` pushes the payload and the sentinel but leaves the
entry in the table — the receive loop does not remove it, contrary to
the claim. -/
theorem c4_complete_entry_remains_counterexample :
    dictGet? (handle_stream_message exampleStreamState
        (stream_envelope "0" exampleChunk true)).pendingRequests "0" =
      some { state := .pending, streamQueue := some [some exampleChunk, none] } :=
  rfl

/-- C4, amended: a stream envelope whose stream id has a live
(non-cancelled) entry pushes the payload onto the entry's queue, and a
completion-marked one additionally pushes the end-of-stream sentinel
after the payload, but the receive loop does NOT remove the entry from
the table (the consumer's cleanup removes it when iteration ends); the
queue remains readable. -/
theorem c4_stream_chunk_keeps_entry (st : WSClientState) (sid : String) (fut : FutureObj)
    (payload : Json)
    (hlook : dictGet? st.pendingRequests sid = some fut)
    (hnc : fut.state.isCancelled = false) :
    handle_stream_message st (stream_envelope sid payload true) =
      handle_stream_message_target st sid fut payload true ∧
    dictGet? (handle_stream_message st (stream_envelope sid payload true)).pendingRequests sid =
      some { fut with streamQueue := some (fut.streamQueue.getD [] ++ [some payload, none]) } ∧
    handle_stream_message st (stream_envelope sid payload false) =
      handle_stream_message_target st sid fut payload false := by
  refine ⟨handle_stream_message_step st sid fut payload true hlook hnc, ?_,
    handle_stream_message_step st sid fut payload false hlook hnc⟩
  rw [handle_stream_message_step st sid fut payload true hlook hnc]
  show dictGet? (dictSet st.pendingRequests sid (pushChunk fut payload true)) sid = _
  rw [dictGet?_dictSet_self st.pendingRequests sid _ (by simp [hlook])]
  simp [pushChunk]

/-- Witness for the amended C4 at the one-stream state. -/
theorem c4_stream_chunk_keeps_entry_witness :
    handle_stream_message exampleStreamState (stream_envelope "0" exampleChunk true) =
      handle_stream_message_target exampleStreamState "0"
        { state := .pending, streamQueue := some [] } exampleChunk true ∧
    dictGet? (handle_stream_message exampleStreamState
        (stream_envelope "0" exampleChunk true)).pendingRequests "0" =
      some { state := .pending, streamQueue := some [some exampleChunk, none] } ∧
    handle_stream_message exampleStreamState (stream_envelope "0" exampleChunk false) =
      handle_stream_message_target exampleStreamState "0"
        { state := .pending, streamQueue := some [] } exampleChunk false :=
  c4_stream_chunk_keeps_entry exampleStreamState "0"
    { state := .pending, streamQueue := some [] } exampleChunk rfl rfl

/-- C7, counterexample: when the socket `send` raises, the dispatch
fails with a `WebSocketError` — not with a `NetworkError` as the claim
states. -/
theorem c7_error_kind_counterexample :
    (send_request_start { messageId := 0, pendingRequests := [] } "inference" (.obj [])
        (.raised "boom")).2 =
      .error { kind := .webSocket, message := .str "WebSocket request failed: boom",
               statusCode := none, responseData := .obj [] } ∧
    ErrKind.webSocket ≠ ErrKind.network :=
  ⟨rfl, by decide⟩

/-- C7, amended: if the socket `send` raises, the dispatch fails with a
`WebSocketError` wrapping the send failure; the fresh pending future is
registered under the allocated id before the send, but the entry is
removed again before the call returns, so no orphaned completion handle
remains in the table. -/
theorem c7_send_failure_no_orphan (st : WSClientState) (requestType : String)
    (reqData : Json) (e : String) :
    dictGet? (send_request_start st requestType reqData (.raised e)).1.pendingRequests
      (toString st.messageId) = none ∧
    (send_request_start st requestType reqData (.raised e)).2 =
      .error { kind := .webSocket, message := .str ("WebSocket request failed: " ++ e),
               statusCode := none, responseData := .obj [] } ∧
    dictGet? (dictInsert st.pendingRequests (toString st.messageId)
        { state := .pending, streamQueue := none }) (toString st.messageId) =
      some { state := .pending, streamQueue := none } := by
  refine ⟨?_, rfl, dictGet?_dictInsert_self _ _ _⟩
  show dictGet? (dictRemove (dictInsert st.pendingRequests (toString st.messageId)
    { state := .pending, streamQueue := none }) (toString st.messageId))
    (toString st.messageId) = none
  exact dictGet?_dictRemove_self _ _

/-- C9: in the chunked HTTP streaming path each `data: `-prefixed line
is decoded independently; a line whose body fails to decode is skipped
without terminating the stream or raising (the following frames are
still delivered), the stream ends exactly at a completion-marked frame
(later lines are not read), and it also ends when the connection closes
(no more lines). -/
theorem c9_decode_failure_skipped (decode : String → Option Json)
    (badLine goodLine : String) (rest : List String) (chunk : Json)
    (hbad1 : pyStartsWith badLine "data: " = true)
    (hbad2 : decode (pyDrop badLine 6) = none)
    (hgood1 : pyStartsWith goodLine "data: " = true)
    (hgood2 : decode (pyDrop goodLine 6) = some chunk)
    (hcomplete : (chunk.getD "is_complete" (.bool false)).truthy = true) :
    stream_lines decode (badLine :: goodLine :: rest) = [chunk] ∧
    stream_lines decode [] = [] := by
  refine ⟨?_, rfl⟩
  simp [stream_lines, hbad1, hbad2, hgood1, hgood2, hcomplete]

/-- Witness for C9: a garbage frame between valid frames is skipped and
the completion-marked frame ends the stream before the trailing line. -/
theorem c9_decode_failure_skipped_witness :
    stream_lines exampleDecode ["data: garbage", "data: final-frame", "data: final-frame"] =
      [.obj [("is_complete", .bool true), ("token", .str "z")]] ∧
    stream_lines exampleDecode [] = [] :=
  c9_decode_failure_skipped exampleDecode "data: garbage" "data: final-frame"
    ["data: final-frame"] (.obj [("is_complete", .bool true), ("token", .str "z")])
    (by decide) rfl (by decide) rfl rfl

/-- C10: a response envelope whose id maps to an already-cancelled
future pops the entry and changes nothing else: the future is returned
as it was (neither `set_result` nor `set_exception` is called), the
handler returns normally, and every other table entry is unchanged. -/
theorem c10_cancelled_future_popped_only (st : WSClientState) (mid : String)
    (fut : FutureObj) (v : Json)
    (hlook : dictGet? st.pendingRequests mid = some fut)
    (hcanc : fut.state = .cancelled)
    (hmid : mid ≠ "") :
    handle_message st (response_envelope mid v) =
      ({ st with pendingRequests := dictRemove st.pendingRequests mid }, some (mid, fut)) ∧
    dictGet? (dictRemove st.pendingRequests mid) mid = none ∧
    ∀ k, k ≠ mid →
      dictGet? (dictRemove st.pendingRequests mid) k = dictGet? st.pendingRequests k := by
  refine ⟨?_, dictGet?_dictRemove_self _ _, fun k hk => dictGet?_dictRemove_ne _ _ _ hk⟩
  simp [handle_message, response_envelope, Json.get?, dictGet?, strEq, truthyOpt,
    Json.truthy, hmid, hlook, hcanc, FutureState.isCancelled]

/-- C2, counterexample: a call whose first underlying attempt yields a
decoded 404 (`ModelNotFoundError`) is retried — the caller observes a
second attempt (and here its success), not the application error after
exactly one attempt: the `tenacity` decorator on `_make_request` has no
retry-predicate filter, so it retries every exception. -/
theorem c2_app_error_retried_counterexample :
    make_request_once (attempts404ThenOk 0) =
      .error { kind := .modelNotFound, message := .str "Model not found",
               statusCode := some 404,
               responseData := .obj [("error", .str "Model not found")] } ∧
    make_request attempts404ThenOk = (.ok (.obj [("text", .str "ok")]), 2) :=
  ⟨rfl, rfl⟩

/-- C2, amended: every failed attempt — including one failing with a
decoded application error such as a 404-mapped `ModelNotFoundError` —
is retried exactly like a network failure, up to 3 attempts in total;
on exhaustion the third attempt's outcome (error or success) is
returned unchanged (`reraise=True`). -/
theorem c2_all_errors_retried (attempts : Nat → HttpAttempt) (e0 e1 : RouterError)
    (h0 : make_request_once (attempts 0) = .error e0)
    (h1 : make_request_once (attempts 1) = .error e1) :
    make_request attempts = (make_request_once (attempts 2), 3) := by
  show retry_loop attempts 0 (1 + 2) = _
  rw [retry_loop, h0]
  show retry_loop attempts 1 (0 + 2) = _
  rw [retry_loop, h1]
  show retry_loop attempts 2 1 = _
  rw [retry_loop]

/-- Witness for the amended C2: three consecutive decoded 404s exhaust
the three attempts and the last `ModelNotFoundError` is surfaced
unchanged. -/
theorem c2_all_errors_retried_witness :
    make_request attemptsAlways404 = (make_request_once (attemptsAlways404 2), 3) :=
  c2_all_errors_retried attemptsAlways404
    { kind := .modelNotFound, message := .str "Model not found",
      statusCode := some 404, responseData := .obj [("error", .str "Model not found")] }
    { kind := .modelNotFound, message := .str "Model not found",
      statusCode := some 404, responseData := .obj [("error", .str "Model not found")] }
    rfl rfl

/-- C3: after dispatching a request (the envelope carries the allocated
id), a response envelope with that id resolves the registered
single-shot future — with the `data` payload when there is no error
field, with a `WebSocketError` when the envelope carries a (truthy)
error field — and removes the entry from the table. -/
theorem c3_response_resolves_single_shot (st : WSClientState) (requestType : String)
    (reqData v : Json) (e : String) (he : e ≠ "") :
    (send_request_start st requestType reqData .ok).2 =
      .ok (toString st.messageId, request_message (toString st.messageId) requestType reqData) ∧
    handle_message (send_request_start st requestType reqData .ok).1
        (response_envelope (toString st.messageId) v) =
      ({ (send_request_start st requestType reqData .ok).1 with
          pendingRequests := dictRemove
            (send_request_start st requestType reqData .ok).1.pendingRequests
            (toString st.messageId) },
       some (toString st.messageId, { state := .result v, streamQueue := none })) ∧
    handle_message (send_request_start st requestType reqData .ok).1
        (error_response_envelope (toString st.messageId) (.str e)) =
      ({ (send_request_start st requestType reqData .ok).1 with
          pendingRequests := dictRemove
            (send_request_start st requestType reqData .ok).1.pendingRequests
            (toString st.messageId) },
       some (toString st.messageId,
         { state := .failed ⟨.webSocket, .str e, none, .obj []⟩,
           streamQueue := none })) ∧
    dictGet? (dictRemove (send_request_start st requestType reqData .ok).1.pendingRequests
        (toString st.messageId)) (toString st.messageId) = none ∧
    await_future { state := .result v, streamQueue := none } = some (.ok v) := by
  have hne : toString st.messageId ≠ "" := nat_repr_ne_empty st.messageId
  have hlook : dictGet? (send_request_start st requestType reqData .ok).1.pendingRequests
      (toString st.messageId) = some { state := .pending, streamQueue := none } := by
    simp only [send_request_start]
    exact dictGet?_dictInsert_self _ _ _
  refine ⟨rfl, ?_, ?_, dictGet?_dictRemove_self _ _, rfl⟩
  · simp [handle_message, response_envelope, Json.get?, Json.getD, dictGet?, strEq,
      truthyOpt, Json.truthy, hne, hlook, FutureState.isCancelled, FutureState.isPending,
      Option.getD]
  · simp [handle_message, error_response_envelope, Json.get?, Json.getD, dictGet?, strEq,
      truthyOpt, Json.truthy, hne, he, hlook, FutureState.isCancelled, FutureState.isPending,
      Option.getD, orEmptyDict]

/-- Witness for C3: the spec's end-to-end scenario — dispatch
`inference` with the ping payload, answer with the same id and
`examplePongData`; the future resolves to the payload, whose `text`
field (as read into `InferenceResponse`) is `"pong"`. -/
theorem c3_response_resolves_single_shot_witness :
    handle_message (send_request_start exampleFreshState "inference" examplePingData .ok).1
        (response_envelope (toString exampleFreshState.messageId) examplePongData) =
      ({ (send_request_start exampleFreshState "inference" examplePingData .ok).1 with
          pendingRequests := dictRemove
            (send_request_start exampleFreshState "inference" examplePingData .ok).1.pendingRequests
            (toString exampleFreshState.messageId) },
       some (toString exampleFreshState.messageId,
         { state := .result examplePongData, streamQueue := none })) ∧
    inference_response_text examplePongData = some (.str "pong") :=
  ⟨(c3_response_resolves_single_shot exampleFreshState "inference" examplePingData
      examplePongData "boom" (by decide)).2.1, rfl⟩

/-- C5: a stream whose chunks arrive in wire order with the last one
completion-marked leaves the consumer's queue holding exactly those
chunks followed by the sentinel; draining observes exactly the chunks
in wire order and then terminates at the sentinel, with nothing
observed past it even if more items were queued. -/
theorem c5_stream_order_and_termination (st : WSClientState) (cs : List Json)
    (hne : cs ≠ []) :
    dictGet? (run_receive_loop (stream_inference_start st).1
        (stream_messages (stream_inference_start st).2 cs)).pendingRequests
      (stream_inference_start st).2 =
      some { state := .pending, streamQueue := some (cs.map some ++ [none]) } ∧
    drainQueue (cs.map some ++ [none]) = cs ∧
    (∀ extra, drainQueue (cs.map some ++ (none :: extra)) = cs) := by
  refine ⟨?_, drainQueue_map_some cs [], fun extra => drainQueue_map_some cs extra⟩
  have hlook : dictGet? (stream_inference_start st).1.pendingRequests
      (stream_inference_start st).2 = some { state := .pending, streamQueue := some [] } := by
    simp only [stream_inference_start]
    exact dictGet?_dictInsert_self _ _ _
  have hfold := fold_stream_messages cs (stream_inference_start st).1
    (stream_inference_start st).2 { state := .pending, streamQueue := some [] } []
    hne hlook rfl rfl
  simpa using hfold

/-- Witness for C5: the spec's `a`,`b`,`c` scenario on a fresh client. -/
theorem c5_stream_order_and_termination_witness :
    dictGet? (run_receive_loop (stream_inference_start exampleFreshState).1
        (stream_messages (stream_inference_start exampleFreshState).2 exampleTokens)).pendingRequests
      (stream_inference_start exampleFreshState).2 =
      some { state := .pending, streamQueue := some (exampleTokens.map some ++ [none]) } ∧
    drainQueue (exampleTokens.map some ++ [none]) = exampleTokens ∧
    (∀ extra, drainQueue (exampleTokens.map some ++ (none :: extra)) = exampleTokens) :=
  c5_stream_order_and_termination exampleFreshState exampleTokens (by simp [exampleTokens])

/-- C6: the timeout branch of `_send_request` removes the dispatcher's
own entry before returning and fails with a `TimeoutError`; a later
response envelope carrying the same id then leaves the state unchanged
and resolves no future (the late reply is dropped). -/
theorem c6_timeout_removes_entry (st : WSClientState) (mid requestType : String) (v : Json) :
    dictGet? (send_request_timeout st mid requestType).1.pendingRequests mid = none ∧
    (send_request_timeout st mid requestType).2.kind = .timeout ∧
    (send_request_timeout st mid requestType).2.message =
      .str ("WebSocket request timeout: " ++ requestType) ∧
    handle_message (send_request_timeout st mid requestType).1 (response_envelope mid v) =
      ((send_request_timeout st mid requestType).1, none) := by
  refine ⟨dictGet?_dictRemove_self _ _, rfl, rfl, ?_⟩
  by_cases hm : mid = ""
  · subst hm
    simp [handle_message, response_envelope, Json.get?, dictGet?, strEq, truthyOpt,
      Json.truthy]
  · simp [handle_message, response_envelope, Json.get?, dictGet?, strEq, truthyOpt,
      Json.truthy, hm, send_request_timeout, dictGet?_dictRemove_self]

/-- C8: under the allocator invariant (which holds for a fresh client),
the next id — the current counter rendered as a string — is not in the
table, every dispatch (single-shot, with either send outcome, and
stream) increments the counter, and the invariant (pairwise-distinct
live ids drawn from already-consumed counter values) is preserved, so
two simultaneously live requests never share an id. -/
theorem c8_fresh_distinct_ids (st : WSClientState) (requestType : String) (reqData : Json)
    (sendOutcome : SendOutcome) (hinv : WSInv st) :
    toString st.messageId ∉ st.pendingRequests.map Prod.fst ∧
    (send_request_start st requestType reqData sendOutcome).1.messageId = st.messageId + 1 ∧
    WSInv (send_request_start st requestType reqData sendOutcome).1 ∧
    (stream_inference_start st).2 = toString st.messageId ∧
    WSInv (stream_inference_start st).1 := by
  have hfresh := fresh_id_not_mem st hinv
  have hinsNodup : ∀ v : FutureObj,
      ((dictInsert st.pendingRequests (toString st.messageId) v).map Prod.fst).Nodup := by
    intro v
    rw [keys_dictInsert_of_not_mem _ _ _ hfresh, List.nodup_append]
    refine ⟨hinv.1, List.nodup_singleton _, ?_⟩
    intro a ha hb
    rw [List.mem_singleton] at hb
    exact hfresh (hb ▸ ha)
  have hstep : ∀ (d : List (String × FutureObj)), (d.map Prod.fst).Nodup →
      (∀ k ∈ d.map Prod.fst,
        k ∈ st.pendingRequests.map Prod.fst ∨ k = toString st.messageId) →
      WSInv { messageId := st.messageId + 1, pendingRequests := d } := by
    intro d hnd hkeys
    refine ⟨hnd, ?_⟩
    intro k hk
    rcases hkeys k hk with h | h
    · obtain ⟨n, hn, hkn⟩ := hinv.2 k h
      exact ⟨n, by show n < st.messageId + 1; omega, hkn⟩
    · exact ⟨st.messageId, by show st.messageId < st.messageId + 1; omega, h⟩
  refine ⟨hfresh, ?_, ?_, rfl, ?_⟩
  · cases sendOutcome <;> rfl
  · cases sendOutcome with
    | ok =>
      exact hstep _ (hinsNodup _) (fun k hk => mem_keys_dictInsert _ _ _ _ hk)
    | raised e =>
      refine hstep _ ?_ ?_
      · exact List.Nodup.sublist (keys_dictRemove_sublist _ _) (hinsNodup _)
      · intro k hk
        exact mem_keys_dictInsert _ _ _ _ (mem_keys_dictRemove _ _ _ hk)
  · exact hstep _ (hinsNodup _) (fun k hk => mem_keys_dictInsert _ _ _ _ hk)

/-- Witness for C8 on a fresh client. -/
theorem c8_fresh_distinct_ids_witness :
    toString exampleFreshState.messageId ∉ exampleFreshState.pendingRequests.map Prod.fst ∧
    (send_request_start exampleFreshState "inference" (.obj []) .ok).1.messageId =
      exampleFreshState.messageId + 1 ∧
    WSInv (send_request_start exampleFreshState "inference" (.obj []) .ok).1 ∧
    (stream_inference_start exampleFreshState).2 = toString exampleFreshState.messageId ∧
    WSInv (stream_inference_start exampleFreshState).1 :=
  c8_fresh_distinct_ids exampleFreshState "inference" (.obj []) .ok
    (by simp [WSInv, exampleFreshState])

/-- Witness for C10 at a state holding a cancelled and a pending
future. -/
theorem c10_cancelled_future_popped_only_witness :
    handle_message exampleCancelledState (response_envelope "0" (.obj [])) =
      ({ exampleCancelledState with
          pendingRequests := dictRemove exampleCancelledState.pendingRequests "0" },
        some ("0", { state := .cancelled, streamQueue := none })) ∧
    dictGet? (dictRemove exampleCancelledState.pendingRequests "0") "0" = none ∧
    ∀ k, k ≠ "0" →
      dictGet? (dictRemove exampleCancelledState.pendingRequests "0") k =
        dictGet? exampleCancelledState.pendingRequests k :=
  c10_cancelled_future_popped_only exampleCancelledState "0"
    { state := .cancelled, streamQueue := none } (.obj []) rfl rfl (by decide)

end LLMRouter
